import Mathlib

/-!
# PropTech extraction pipeline — shallow embedding

This file embeds the pure core of the repository's property-extraction
pipeline (the three near-duplicated copies in the data-collection script,
the MCP variant and the Lambda RealtyDataService) and proves the frozen
claims about it.

Modelling conventions:
* A listing node is represented by the raw fields the selector cascades
  resolve from it (price text, address text, image src, link href, full
  text content).  The DOM / querySelector machinery is outside the pure
  core; every claim under scrutiny is about what happens after the raw
  strings have been read from the node.
* JavaScript regular-expression matching (leftmost match, greedy
  quantifiers with backtracking, ordered alternation, case-insensitive
  flag) is implemented by an explicit backtracking matcher over
  item sequences (character-class repetitions, literals, alternations,
  optional and starred groups, and the end-of-input alternative used by
  one of the bed patterns).  The character classes are the ASCII
  fragment of the JS classes, which covers every string the pipeline
  and the claims exercise.
* JS `parseInt` is modelled on its uses here (strings of an optional
  whitespace run followed by digits; `NaN` becomes `none`), `parseFloat`
  on the decimal captures the bath pattern can produce, and `Date.now()`
  / `Math.random()` become explicit parameters, so the nondeterminism of
  the source is explicit input.
-/

namespace PropTech

/-! ## Character classes and string helpers (ASCII fragment of JS) -/

/-- JS `\d`. -/
def jsDigit (c : Char) : Bool := 48 ≤ c.toNat && c.toNat ≤ 57

/-- JS `\s`, restricted to its ASCII members. -/
def jsWs (c : Char) : Bool :=
  c == ' ' || c == '\t' || c == '\n' || c == '\r' || c == '\x0b' || c == '\x0c'

/-- JS `[A-Za-z]`. -/
def asciiAlpha (c : Char) : Bool :=
  (65 ≤ c.toNat && c.toNat ≤ 90) || (97 ≤ c.toNat && c.toNat ≤ 122)

/-- JS `[\d,]`. -/
def digitComma (c : Char) : Bool := jsDigit c || c == ','

/-- JS `[A-Za-z\s]`. -/
def alphaWs (c : Char) : Bool := asciiAlpha c || jsWs c

/-- JS `String.prototype.toLowerCase` (ASCII). -/
def lowerStr (s : String) : String := ⟨s.data.map Char.toLower⟩

/-- Exact (case-sensitive) list-level check that the first argument
starts the second.  Used for JS `startsWith`. -/
def plainPre : List Char → List Char → Bool
  | [], _ => true
  | _ :: _, [] => false
  | a :: as, b :: bs => a == b && plainPre as bs

/-- JS `String.prototype.startsWith`. -/
def jsStartsWith (s pat : String) : Bool := plainPre pat.data s.data

/-- Substring occurrence at the list level. -/
def hasSubL (sub : List Char) : List Char → Bool
  | [] => plainPre sub []
  | c :: rest => plainPre sub (c :: rest) || hasSubL sub rest

/-- JS `String.prototype.includes`. -/
def jsHasSub (s sub : String) : Bool := hasSubL sub.data s.data

/-- JS `replace(/\s/g, '')`. -/
def stripWsL (l : List Char) : List Char := l.filter (fun c => !(jsWs c))

/-- JS `replace(/[$,]/g, '')` (also used for the escaped `[\$,]` form). -/
def stripCurrencyL (l : List Char) : List Char :=
  l.filter (fun c => !(c == '$' || c == ','))

/-- JS `String.prototype.trim` (ASCII whitespace). -/
def trimL (l : List Char) : List Char :=
  ((l.dropWhile jsWs).reverse.dropWhile jsWs).reverse

/-- Value of a digit string. -/
def digitsToNat (l : List Char) : Nat :=
  l.foldl (fun a c => a * 10 + (c.toNat - 48)) 0

/-- JS `parseInt`, on the inputs this pipeline gives it: leading
whitespace is skipped, then a leading digit run is read; no digits means
`NaN`, modelled as `none`. -/
def jsParseIntL (l : List Char) : Option Nat :=
  let t := l.dropWhile jsWs
  let ds := t.takeWhile jsDigit
  if ds = [] then none else some (digitsToNat ds)

/-- A JS number that is a non-negative finite decimal (every number this
pipeline computes with is one): integer part plus fraction digits in
canonical form (no trailing zero).  Equality, the order comparisons
against the integer range bounds, and printing agree with JS numbers on
this domain. -/
structure JsDec where
  units : Nat
  frac : List Nat
deriving DecidableEq

/-- Drop trailing zeros of a fraction-digit list. -/
def stripTrailingZeros (l : List Nat) : List Nat :=
  (l.reverse.dropWhile (fun d => d == 0)).reverse

/-- JS `parseFloat`, on the decimal captures (`\d+(?:\.\d+)?`) the bath
pattern can produce. -/
def parseFloatDec (l : List Char) : JsDec :=
  let ip := l.takeWhile jsDigit
  let rest := l.drop ip.length
  match rest with
  | '.' :: fr =>
    let fd := (fr.takeWhile jsDigit).map (fun c => c.toNat - 48)
    { units := digitsToNat ip, frac := stripTrailingZeros fd }
  | _ => { units := digitsToNat ip, frac := [] }

/-- `lo ≤ v` for a natural bound and a canonical decimal. -/
def natLeDec (lo : Nat) (v : JsDec) : Bool := lo ≤ v.units

/-- `v ≤ hi` for a canonical decimal and a natural bound. -/
def decLeNat (v : JsDec) (hi : Nat) : Bool :=
  v.units < hi || (v.units == hi && v.frac == [])

/-- JS `x || d` for a possibly-NaN number: `NaN` and `0` are falsy. -/
def jsOrNat (o : Option Nat) (dflt : Nat) : Nat :=
  match o with
  | some n => if n = 0 then dflt else n
  | none => dflt

/-- JS `replace(/,/g, '')`. -/
def stripCommasL (l : List Char) : List Char := l.filter (fun c => !(c == ','))

/-! ## JS number-to-string (template interpolation) -/

/-- The character of a decimal digit. -/
def digitChar (d : Nat) : Char := Char.ofNat (48 + d)

/-- Decimal digits of `n`, least significant first; the fuel argument is
an upper bound on the digit count (callers pass `n` itself). -/
def digitsRevFuel : Nat → Nat → List Nat
  | 0, _ => []
  | fuel + 1, n => if n = 0 then [] else n % 10 :: digitsRevFuel fuel (n / 10)

/-- JS template interpolation of a natural number. -/
def natRepr (n : Nat) : String :=
  if n = 0 then "0" else ⟨((digitsRevFuel n n).reverse).map digitChar⟩

/-- JS template interpolation of a non-negative finite-decimal number:
integers print without a decimal point, non-integers print their
shortest decimal form (for example `2.5`). -/
def decRepr (v : JsDec) : String :=
  natRepr v.units ++ (if v.frac = [] then "" else "." ++ ⟨v.frac.map digitChar⟩)

/-! ## A small backtracking matcher with JS semantics

The patterns of the pipeline are sequences of these items.  Matching is
leftmost-first over start positions; within one start position the
backtracking order is the JS/PCRE one: greedy repetitions try the
longest take first, alternations are tried in written order, `?` and `*`
prefer taking the group.  All literal comparisons are case-insensitive,
matching the `i` flag on every alphabetic pattern of the source (the
price patterns contain no letters, so this is conservative for them). -/

inductive RItem where
  /-- A greedy repetition of a character class: at least `mn` characters,
  at most `mx` (`none` = unbounded).  Covers `+`, `*`, `{a,b}`. -/
  | cls (p : Char → Bool) (mn : Nat) (mx : Option Nat)
  /-- A literal, compared case-insensitively. -/
  | lit (cs : List Char)
  /-- Ordered alternation of item sequences. -/
  | alt (alts : List (List RItem))
  /-- A greedy optional group (`(?:...)?`). -/
  | opt (sub : List RItem)
  /-- A greedy starred group (`(?:...)*`). -/
  | star (sub : List RItem)
  /-- `(?:\s|$)`-style item: one character of the class, or end of input. -/
  | orEnd (p : Char → Bool)

/-- First success of `f` over a list, in order. -/
def firstSome : List α → (α → Option β) → Option β
  | [], _ => none
  | a :: l, f => match f a with
    | some b => some b
    | none => firstSome l f

/-- Length of the maximal prefix satisfying `p`. -/
def runLen (p : Char → Bool) : List Char → Nat
  | [] => 0
  | c :: cs => if p c then runLen p cs + 1 else 0

/-- `[hi, hi-1, ..., lo]` (empty if `hi < lo`): the greedy preference
order for a repetition count. -/
def descRange (hi lo : Nat) : List Nat :=
  if lo ≤ hi then (List.range (hi - lo + 1)).map (fun t => hi - t) else []

/-- Case-insensitive character comparison. -/
def ciEqChar (a b : Char) : Bool := a.toLower == b.toLower

/-- Case-insensitive list-level "starts with". -/
def ciPre : List Char → List Char → Bool
  | [], _ => true
  | _ :: _, [] => false
  | a :: as, b :: bs => ciEqChar a b && ciPre as bs

/-- Match an item sequence against `s`, in JS backtracking order,
returning the number of characters the sequence consumes on the first
success whose remainder satisfies `cont`.  `fuel` bounds the call depth
(every unfolding step of a group consumes input, so the callers below
always pass enough). -/
def matchSeqK : Nat → List RItem → List Char → (List Char → Bool) → Option Nat
  | 0, _, _, _ => none
  | _ + 1, [], s, cont => if cont s then some 0 else none
  | fuel + 1, RItem.cls p mn mx :: rest, s, cont =>
    let r := runLen p s
    let hi := match mx with | none => r | some m => min r m
    firstSome (descRange hi mn) (fun k =>
      (matchSeqK fuel rest (s.drop k) cont).map (fun n => k + n))
  | fuel + 1, RItem.lit cs :: rest, s, cont =>
    if ciPre cs s then
      (matchSeqK fuel rest (s.drop cs.length) cont).map (fun n => cs.length + n)
    else none
  | fuel + 1, RItem.alt alts :: rest, s, cont =>
    firstSome alts (fun a => matchSeqK fuel (a ++ rest) s cont)
  | fuel + 1, RItem.opt sub :: rest, s, cont =>
    match matchSeqK fuel (sub ++ rest) s cont with
    | some n => some n
    | none => matchSeqK fuel rest s cont
  | fuel + 1, RItem.star sub :: rest, s, cont =>
    match matchSeqK fuel (sub ++ (RItem.star sub :: rest)) s cont with
    | some n => some n
    | none => matchSeqK fuel rest s cont
  | fuel + 1, RItem.orEnd p :: rest, s, cont =>
    let viaChar : Option Nat :=
      match s with
      | [] => none
      | c :: tl => if p c then (matchSeqK fuel rest tl cont).map (fun n => 1 + n) else none
    match viaChar with
    | some n => some n
    | none =>
      match s with
      | [] => matchSeqK fuel rest s cont
      | _ :: _ => none

/-- Fuel that is ample for every pattern of the pipeline at a given
suffix. -/
def fuelFor (s : List Char) : Nat := (s.length + 8) * 16 + 64

/-- Leftmost full match of a pattern: the matched text of the first
start position where the pattern matches (JS `match` with a pattern
without capture use, `matches[0]`). -/
def scanMatch (pat : List RItem) : List Char → Option (List Char)
  | [] =>
    (matchSeqK (fuelFor []) pat [] (fun _ => true)).map (fun n => List.take n [])
  | c :: rest =>
    match matchSeqK (fuelFor (c :: rest)) pat (c :: rest) (fun _ => true) with
    | some n => some ((c :: rest).take n)
    | none => scanMatch pat rest

/-- At one start position: the text of capture group 1 (the `cap`
items), given that the `tail` items can match afterwards. -/
def capAt (cap tail : List RItem) (s : List Char) : Option (List Char) :=
  (matchSeqK (fuelFor s) cap s (fun rem =>
    (matchSeqK (fuelFor s) tail rem (fun _ => true)).isSome)).map
    (fun n => s.take n)

/-- Leftmost match of a `(capture)tail` pattern, returning `match[1]`. -/
def scanCapture (cap tail : List RItem) : List Char → Option (List Char)
  | [] => capAt cap tail []
  | c :: rest =>
    match capAt cap tail (c :: rest) with
    | some m => some m
    | none => scanCapture cap tail rest

/-! ## The price parser (shared body of the script and MCP copies) -/

/-- `/\$[\d,]+/g`. -/
def pricePat1 : List RItem := [RItem.lit ['$'], RItem.cls digitComma 1 none]

/-- `/\$\s*[\d,]+/g`. -/
def pricePat2 : List RItem :=
  [RItem.lit ['$'], RItem.cls jsWs 0 none, RItem.cls digitComma 1 none]

/-- `/[\d,]+\s*\$/g`. -/
def pricePat3 : List RItem :=
  [RItem.cls digitComma 1 none, RItem.cls jsWs 0 none, RItem.lit ['$']]

/-- The fixed `invalidPriceIndicators` list of the source. -/
def invalidPriceIndicators : List String :=
  ["price available", "price not available", "call for price",
   "contact for price", "price upon request", "tbd", "n/a",
   "coming soon", "off market", "sold"]

/-- The pattern cascade of `parsePrice`: take the first match of each
pattern in turn; strip its whitespace; if its numeric value (currency
symbols and commas stripped) lies strictly between 10000 and 10000000
return it, otherwise fall through to the next pattern; `none` when no
pattern remains. -/
def tryPricePatterns : List (List RItem) → List Char → Option (List Char)
  | [], _ => none
  | pat :: rest, corpus =>
    match scanMatch pat corpus with
    | some m =>
      let price := stripWsL m
      match jsParseIntL (stripCurrencyL price) with
      | some n =>
        if 10000 < n ∧ n < 10000000 then some price else tryPricePatterns rest corpus
      | none => tryPricePatterns rest corpus
    | none => tryPricePatterns rest corpus

/-- `parsePrice` of the script and MCP pipelines: reject when the
candidate `text` argument (lower-cased) contains an invalid-price
indicator, otherwise scan the pattern cascade over
`text + ' ' + fullText`. -/
def parsePrice (text fullText : String) : Option String :=
  let lowerText := lowerStr text
  if invalidPriceIndicators.any (fun ind => jsHasSub lowerText ind) then none
  else
    match tryPricePatterns [pricePat1, pricePat2, pricePat3]
        (text ++ " " ++ fullText).data with
    | some cs => some ⟨cs⟩
    | none => none

/-- `parsePrice` of the Lambda `RealtyDataService`: same cascade, no
invalid-indicator check, and the fall-through result is the placeholder
string instead of null. -/
def parsePrice003 (text fullText : String) : String :=
  match tryPricePatterns [pricePat1, pricePat2, pricePat3]
      (text ++ " " ++ fullText).data with
  | some cs => (⟨cs⟩ : String)
  | none => "Price not available"

/-! ## The address parser -/

/-- The street-suffix alternation of the first address pattern, in
source order. -/
def streetSuffixAlts : List (List RItem) :=
  ["Street", "St", "Avenue", "Ave", "Road", "Rd", "Drive", "Dr", "Lane",
   "Ln", "Boulevard", "Blvd", "Circle", "Cir", "Court", "Ct", "Place",
   "Pl", "Way"].map (fun s => [RItem.lit s.data])

/-- Capture of `(\d+\s+[A-Za-z\s]+(?:Street|St|...|Way))`. -/
def addrCap1 : List RItem :=
  [RItem.cls jsDigit 1 none, RItem.cls jsWs 1 none,
   RItem.cls alphaWs 1 none, RItem.alt streetSuffixAlts]

/-- Capture of `(\d+\s+[A-Za-z\s]+)`. -/
def addrCap2 : List RItem :=
  [RItem.cls jsDigit 1 none, RItem.cls jsWs 1 none, RItem.cls alphaWs 1 none]

/-- Capture of `(\d{1,5}\s+[A-Za-z\s]{3,30})`. -/
def addrCap3 : List RItem :=
  [RItem.cls jsDigit 1 (some 5), RItem.cls jsWs 1 none,
   RItem.cls alphaWs 3 (some 30)]

/-- Tail `\s+(?:cityName)` of the script/MCP address patterns. -/
def addrTail (city : String) : List RItem :=
  [RItem.cls jsWs 1 none, RItem.lit city.data]

/-- Tail `\s+(?:Parma|cityName)` of the Lambda address patterns. -/
def addrTail003 (city : String) : List RItem :=
  [RItem.cls jsWs 1 none,
   RItem.alt [[RItem.lit "Parma".data], [RItem.lit city.data]]]

/-- The `parseAddress` loop: first pattern whose trimmed capture has
length in `(5, 50)` and contains a digit; patterns whose capture fails
the validation fall through. -/
def tryAddrPatterns : List (List RItem × List RItem) → List Char → Option (List Char)
  | [], _ => none
  | (cap, tl) :: rest, full =>
    match scanCapture cap tl full with
    | some m =>
      if m ≠ [] then
        let address := trimL m
        if 5 < address.length ∧ address.length < 50 ∧ address.any jsDigit then
          some address
        else tryAddrPatterns rest full
      else tryAddrPatterns rest full
    | none => tryAddrPatterns rest full

/-- `parseAddress` of the script and MCP pipelines.  Note the source
function matches against the node's `fullText` closure (its `text`
argument is ignored), so the model takes `fullText` directly. -/
def parseAddressJS (fullText city state : String) : String :=
  match tryAddrPatterns
      [(addrCap1, addrTail city), (addrCap2, addrTail city),
       (addrCap3, addrTail city)] fullText.data with
  | some a => (⟨a⟩ : String) ++ ", " ++ city ++ ", " ++ state
  | none => ""

/-- `parseAddress` of the Lambda pipeline (`(?:Parma|cityName)` tails). -/
def parseAddress003 (fullText city state : String) : String :=
  match tryAddrPatterns
      [(addrCap1, addrTail003 city), (addrCap2, addrTail003 city),
       (addrCap3, addrTail003 city)] fullText.data with
  | some a => (⟨a⟩ : String) ++ ", " ++ city ++ ", " ++ state
  | none => ""

/-! ## Beds / baths / sqft parsers -/

/-- Capture `(\d+)` of the bed patterns. -/
def bedsCap : List RItem := [RItem.cls jsDigit 1 none]

/-- Tail `\s*(?:bed|bedroom|br|bds)`. -/
def bedsTail1 : List RItem :=
  [RItem.cls jsWs 0 none,
   RItem.alt [[RItem.lit "bed".data], [RItem.lit "bedroom".data],
              [RItem.lit "br".data], [RItem.lit "bds".data]]]

/-- Tail `\s*bd`. -/
def bedsTail2 : List RItem := [RItem.cls jsWs 0 none, RItem.lit "bd".data]

/-- Tail `\s*b(?:\s|$)`. -/
def bedsTail3 : List RItem :=
  [RItem.cls jsWs 0 none, RItem.lit "b".data, RItem.orEnd jsWs]

/-- The shared loop of the integer-capture parsers: first pattern whose
`parseInt`-ed capture lies in `[lo, hi]`; out-of-range (or NaN) matches
fall through to the next pattern. -/
def tryNatPatterns (lo hi : Nat) :
    List (List RItem × List RItem) → List Char → Option Nat
  | [], _ => none
  | (cap, tl) :: rest, corpus =>
    match scanCapture cap tl corpus with
    | some m =>
      match jsParseIntL m with
      | some v =>
        if lo ≤ v ∧ v ≤ hi then some v else tryNatPatterns lo hi rest corpus
      | none => tryNatPatterns lo hi rest corpus
    | none => tryNatPatterns lo hi rest corpus

/-- The bed patterns, matched over `text + ' ' + fullText`. -/
def bedsCore (lo hi : Nat) (text fullText : String) : Option Nat :=
  tryNatPatterns lo hi
    [(bedsCap, bedsTail1), (bedsCap, bedsTail2), (bedsCap, bedsTail3)]
    (text ++ " " ++ fullText).data

/-- `parseBeds` of the script and Lambda pipelines: range `[1, 10]`,
default 3. -/
def parseBeds (text fullText : String) : Nat :=
  (bedsCore 1 10 text fullText).getD 3

/-- `parseBeds` of the MCP pipeline: range `[0, 10]`, result stringified,
`"N/A"` default.  (The JS record stores the string `beds.toString()`.) -/
def parseBedsMCP (text fullText : String) : String :=
  match bedsCore 0 10 text fullText with
  | some b => natRepr b
  | none => "N/A"

/-- Capture `(\d+(?:\.\d+)?)` of the bath patterns. -/
def bathsCap : List RItem :=
  [RItem.cls jsDigit 1 none,
   RItem.opt [RItem.lit ['.'], RItem.cls jsDigit 1 none]]

/-- Tail `\s*(?:bath|bathroom|ba)`. -/
def bathsTail1 : List RItem :=
  [RItem.cls jsWs 0 none,
   RItem.alt [[RItem.lit "bath".data], [RItem.lit "bathroom".data],
              [RItem.lit "ba".data]]]

/-- Tail `\s*(?:bath|bathroom|ba|baths)` of the MCP copy. -/
def bathsTail1MCP : List RItem :=
  [RItem.cls jsWs 0 none,
   RItem.alt [[RItem.lit "bath".data], [RItem.lit "bathroom".data],
              [RItem.lit "ba".data], [RItem.lit "baths".data]]]

/-- Tail `\s*ba`. -/
def bathsTail2 : List RItem := [RItem.cls jsWs 0 none, RItem.lit "ba".data]

/-- The shared loop of the decimal-capture (bath) parsers: first pattern
whose `parseFloat`-ed capture lies in `[lo, hi]`. -/
def tryDecPatterns (lo hi : Nat) :
    List (List RItem × List RItem) → List Char → Option JsDec
  | [], _ => none
  | (cap, tl) :: rest, corpus =>
    match scanCapture cap tl corpus with
    | some m =>
      let v := parseFloatDec m
      if natLeDec lo v && decLeNat v hi then some v
      else tryDecPatterns lo hi rest corpus
    | none => tryDecPatterns lo hi rest corpus

/-- `parseBaths` of the script and Lambda pipelines: range `[1, 10]`,
default 2. -/
def parseBaths (text fullText : String) : JsDec :=
  (tryDecPatterns 1 10 [(bathsCap, bathsTail1), (bathsCap, bathsTail2)]
    (text ++ " " ++ fullText).data).getD { units := 2, frac := [] }

/-- `parseBaths` of the MCP pipeline: range `[0, 20]`, stringified,
`"N/A"` default. -/
def parseBathsMCP (text fullText : String) : String :=
  match tryDecPatterns 0 20 [(bathsCap, bathsTail1MCP), (bathsCap, bathsTail2)]
      (text ++ " " ++ fullText).data with
  | some v => decRepr v
  | none => "N/A"

/-- Capture `(\d{1,3}(?:,\d{3})*)` of the sqft patterns. -/
def sqftCap : List RItem :=
  [RItem.cls jsDigit 1 (some 3),
   RItem.star [RItem.lit [','], RItem.cls jsDigit 3 (some 3)]]

/-- Tail `\s*(?:sq\.?\s*ft|sqft|square\s*feet)`. -/
def sqftTail1 : List RItem :=
  [RItem.cls jsWs 0 none,
   RItem.alt
     [[RItem.lit "sq".data, RItem.opt [RItem.lit ['.']],
       RItem.cls jsWs 0 none, RItem.lit "ft".data],
      [RItem.lit "sqft".data],
      [RItem.lit "square".data, RItem.cls jsWs 0 none, RItem.lit "feet".data]]]

/-- Tail `\s*sf`. -/
def sqftTail2 : List RItem := [RItem.cls jsWs 0 none, RItem.lit "sf".data]

/-- The sqft loop: grouping commas are stripped from the capture
(`replace(/,/g, '')`) before `parseInt`; range `[500, 10000]`. -/
def trySqftPatterns : List (List RItem × List RItem) → List Char → Option Nat
  | [], _ => none
  | (cap, tl) :: rest, corpus =>
    match scanCapture cap tl corpus with
    | some m =>
      match jsParseIntL (stripCommasL m) with
      | some v => if 500 ≤ v ∧ v ≤ 10000 then some v else trySqftPatterns rest corpus
      | none => trySqftPatterns rest corpus
    | none => trySqftPatterns rest corpus

/-- The sqft patterns over `text + ' ' + fullText`. -/
def sqftCore (text fullText : String) : Option Nat :=
  trySqftPatterns [(sqftCap, sqftTail1), (sqftCap, sqftTail2)]
    (text ++ " " ++ fullText).data

/-- `parseSqft` of the script and Lambda pipelines: default 1500. -/
def parseSqft (text fullText : String) : Nat :=
  (sqftCore text fullText).getD 1500

/-- `parseSqft` of the MCP pipeline: stringified, `"N/A"` default.  (The
JS record stores either the number or the string; the model stores the
JS string form of that value.) -/
def parseSqftMCP (text fullText : String) : String :=
  match sqftCore text fullText with
  | some n => natRepr n
  | none => "N/A"

/-! ## URL normalization -/

/-- Image-URL normalization (identical in all three copies): a non-empty
URL that is neither absolute (`http...`) nor a data URI is rewritten —
protocol-relative gets `https:`, root-relative gets the site origin. -/
def normalizeImageUrl (u : String) : String :=
  if u ≠ "" ∧ ¬ jsStartsWith u "http" ∧ ¬ jsStartsWith u "data:" then
    if jsStartsWith u "//" then "https:" ++ u
    else if jsStartsWith u "/" then "https://www.realty.com" ++ u
    else u
  else u

/-- Absolutization of a property URL (identical in all three copies). -/
def absolutizeUrl (href : String) : String :=
  if jsStartsWith href "http" then href
  else if jsStartsWith href "/" then "https://www.realty.com" ++ href
  else "https://www.realty.com/" ++ href

/-- The deny-list test of the script and Lambda copies. -/
def denyHit (u : String) : Bool :=
  jsHasSub u "mailto:" || jsHasSub u "tel:" || jsHasSub u "javascript:" ||
  jsHasSub u "#" || jsHasSub u "agent" || jsHasSub u "contact"

/-- Property-URL normalization of the script and Lambda copies:
absolutize, then discard (empty) any URL hitting the deny list. -/
def normalizeUrl000 (href : String) : String :=
  if href = "" then ""
  else
    let u := absolutizeUrl href
    if denyHit u then "" else u

/-- Property-URL normalization of the MCP copy: absolutize only — this
copy has no deny-list filter. -/
def normalizeUrlMCP (href : String) : String :=
  if href = "" then "" else absolutizeUrl href

/-! ## Address synthesis and record construction -/

/-- The explicit record of one extraction's random draws
(`Math.random()` uses of the source). -/
structure Draws where
  streetNumber : Nat
  nameIdx : Nat
  typeIdx : Nat
deriving DecidableEq

/-- The fixed street-name pool of the fallback synthesizer. -/
def streetNames : List String :=
  ["Main", "Oak", "Maple", "Cedar", "Pine", "Elm", "Park", "North",
   "South", "East", "West"]

/-- The fixed street-type pool of the fallback synthesizer. -/
def streetTypes : List String := ["St", "Ave", "Rd", "Dr", "Ln", "Blvd", "Ct", "Pl"]

/-- The synthesized fallback address.  In the source `streetNumber` is
`Math.floor(Math.random() * 9999) + 1` (so `1 ≤ n ≤ 9999`) and the two
indices are uniform in the pools; here they are the explicit draws. -/
def synthAddress (d : Draws) (city state : String) : String :=
  natRepr d.streetNumber ++ " " ++ streetNames.getD d.nameIdx "" ++ " " ++
    streetTypes.getD d.typeIdx "" ++ ", " ++ city ++ ", " ++ state

/-- The raw fields the selector cascades resolve from one listing node:
price text, address text, resolved image attribute, link href, and the
node's full text content. -/
structure RawFields where
  priceText : String
  addressText : String
  imageUrl : String
  href : String
  fullText : String
deriving DecidableEq

/-- The record emitted by the script (`load-properties.js`) pipeline. -/
structure Record000 where
  objectID : String
  address : String
  price : String
  beds : Nat
  baths : JsDec
  sqft : Nat
  description : String
  imageUrl : String
  propertyUrl : String
  city : String
  state : String
  priceRange : String
  propertyType : String
  collectedAt : String
deriving DecidableEq

/-- The record emitted by the MCP pipeline.  `beds`, `baths` and `sqft`
are stored in their JS string forms (`beds.toString()` etc.; `sqft` is a
number or the string `"N/A"` in the source — the model stores its
template form). -/
structure RecordMCP where
  objectID : String
  address : String
  price : String
  priceNumeric : Nat
  beds : String
  baths : String
  sqft : String
  description : String
  imageUrl : String
  propertyUrl : String
  city : String
  state : String
  priceRange : String
  propertyType : String
  timestamp : String
  collectedAt : String
  source : String
deriving DecidableEq

/-- The record emitted by the Lambda `RealtyDataService` pipeline. -/
structure Record003 where
  id : String
  address : String
  price : String
  beds : Nat
  baths : JsDec
  sqft : Nat
  description : String
  imageUrl : String
  propertyUrl : String
  city : String
  state : String
  priceRange : String
  propertyType : String
  collectedAt : String
deriving DecidableEq

/-- The price-bucket chain shared by all three copies (applied when the
numeric price is positive). -/
def priceRangeChain (n : Nat) : String :=
  if n < 200000 then "Under $200K"
  else if n < 400000 then "$200K - $400K"
  else if n < 600000 then "$400K - $600K"
  else "Over $600K"

/-- `propertyType` from the bed count (script and Lambda copies). -/
def propertyTypeOf (beds : Nat) : String :=
  if beds = 1 then "Condo/Apartment"
  else if beds = 2 then "Townhouse/Condo"
  else "Single Family Home"

/-- The description template of the script and MCP copies. -/
def mkDescription000 (beds baths sqft propertyType city state priceRange price : String) :
    String :=
  "Beautiful " ++ beds ++ " bed, " ++ baths ++ " bath " ++
    lowerStr propertyType ++ " in " ++ city ++ ", " ++ state ++
    ". Features modern amenities and great location. " ++ priceRange ++
    " price range. " ++ beds ++ " bedroom " ++ baths ++
    " bathroom home with " ++ sqft ++
    " square feet. Property type: " ++ propertyType ++ ". Located in " ++
    city ++ " " ++ state ++ ". " ++ price ++
    " house home property real estate."

/-- The shorter description template of the Lambda copy. -/
def mkDescription003 (beds baths propertyType city state : String) : String :=
  "Beautiful " ++ beds ++ " bed, " ++ baths ++ " bath " ++
    lowerStr propertyType ++ " in " ++ city ++ ", " ++ state ++
    ". Features modern amenities and great location."

/-! ## The script pipeline (part `load-properties.js`) -/

/-- The record validator / normalizer of the script pipeline (the tail
of its extraction callback, from the price gate to the record literal).
`nowMs` models `Date.now()` and `tsNow` the `toISOString()` timestamp. -/
def finalize000 (city state : String) (index : Nat) (d : Draws) (nowMs : Nat)
    (tsNow : String) (price : Option String) (extractedAddress addressText : String)
    (beds : Nat) (baths : JsDec) (sqft : Nat) (imageUrl propertyUrl : String) :
    Option Record000 :=
  match price with
  | none => none
  | some p =>
    if p = "" then none
    else
      let fa0 := if extractedAddress = "" then addressText else extractedAddress
      let finalAddress :=
        if fa0 = "" ∨ fa0.length < 10 then synthAddress d city state else fa0
      let priceNum := jsOrNat (jsParseIntL (stripCurrencyL p.data)) 250000
      let priceRange := if 0 < priceNum then priceRangeChain priceNum else "Unknown"
      let propertyType := propertyTypeOf beds
      some
        { objectID := "property_" ++ natRepr nowMs ++ "_" ++ natRepr index
          address := finalAddress
          price := p
          beds := beds
          baths := baths
          sqft := sqft
          description :=
            mkDescription000 (natRepr beds) (decRepr baths) (natRepr sqft)
              propertyType city state priceRange p
          imageUrl := imageUrl
          propertyUrl := propertyUrl
          city := city
          state := state
          priceRange := priceRange
          propertyType := propertyType
          collectedAt := tsNow }

/-- The per-node extraction callback of the script pipeline: field
parsers over the node's raw fields, then the validator. -/
def extract000 (city state : String) (index : Nat) (d : Draws) (nowMs : Nat)
    (tsNow : String) (rf : RawFields) : Option Record000 :=
  finalize000 city state index d nowMs tsNow
    (parsePrice rf.priceText rf.fullText)
    (parseAddressJS rf.fullText city state)
    rf.addressText
    (parseBeds rf.fullText rf.fullText)
    (parseBaths rf.fullText rf.fullText)
    (parseSqft rf.fullText rf.fullText)
    (normalizeImageUrl rf.imageUrl)
    (normalizeUrl000 rf.href)

/-- `map` with the element index, starting at `i`. -/
def mapIdxFrom (f : Nat → α → β) : Nat → List α → List β
  | _, [] => []
  | i, a :: l => f i a :: mapIdxFrom f (i + 1) l

/-- The collection orchestrator of the script pipeline: slice the
located nodes to `maxProps`, then map the extraction callback.  The
result of the map is returned as is — rejected listings stay as `none`
entries (the JS nulls); they are only filtered later, in
`indexProperties`. -/
def collect000 (city state : String) (env : Nat → Draws) (nowMs : Nat)
    (tsNow : String) (nodes : List RawFields) (maxProps : Nat) :
    List (Option Record000) :=
  mapIdxFrom (fun i rf => extract000 city state i (env i) nowMs tsNow rf) 0
    (nodes.take maxProps)

/-! ## The MCP pipeline (part `load-properties-mcp.js`) -/

/-- The MCP price value: the caller passes `priceText + ' ' + fullText`
as the candidate text (so the indicator check sees the combined corpus
in this copy). -/
def mcpPrice (rf : RawFields) : Option String :=
  parsePrice (rf.priceText ++ " " ++ rf.fullText) rf.fullText

/-- The MCP address value: `parseAddress(...) || addressText`. -/
def mcpAddress (city state : String) (rf : RawFields) : String :=
  let a := parseAddressJS rf.fullText city state
  if a = "" then rf.addressText else a

/-- The MCP image value. -/
def mcpImage (rf : RawFields) : String := normalizeImageUrl rf.imageUrl

/-- The MCP property-URL value (no deny-list in this copy). -/
def mcpUrl (rf : RawFields) : String := normalizeUrlMCP rf.href

/-- The per-node extraction callback of the MCP pipeline: parse, then
accept only when price, address, image URL and property URL are all
truthy.  `sfx` models the `Math.random().toString(36).substr(2, 9)`
object-id suffix. -/
def extractMCP (city state sfx : String) (nowMs : Nat) (tsNow : String)
    (rf : RawFields) : Option RecordMCP :=
  match mcpPrice rf with
  | none => none
  | some p =>
    if p = "" ∨ mcpAddress city state rf = "" ∨ mcpImage rf = "" ∨ mcpUrl rf = ""
    then none
    else
      let numericPrice := (jsParseIntL (stripCurrencyL p.data)).getD 0
      let priceRange :=
        if 0 < numericPrice then priceRangeChain numericPrice else "Unknown"
      let beds := parseBedsMCP rf.fullText rf.fullText
      let baths := parseBathsMCP rf.fullText rf.fullText
      let sqft := parseSqftMCP rf.fullText rf.fullText
      let bedsNum := jsParseIntL beds.data
      let propertyType :=
        if bedsNum = some 1 then "Condo/Apartment"
        else if bedsNum = some 2 then "Townhouse/Condo"
        else "Single Family Home"
      some
        { objectID := "property_" ++ natRepr nowMs ++ "_" ++ sfx
          address := mcpAddress city state rf
          price := p
          priceNumeric := numericPrice
          beds := beds
          baths := baths
          sqft := sqft
          description :=
            mkDescription000 beds baths sqft propertyType city state priceRange p
          imageUrl := mcpImage rf
          propertyUrl := mcpUrl rf
          city := city
          state := state
          priceRange := priceRange
          propertyType := propertyType
          timestamp := tsNow
          collectedAt := tsNow
          source := "realty.com" }

/-- The mapped (unfiltered) extraction results of the MCP pipeline. -/
def collectMCPRaw (city state : String) (sfx : Nat → String) (nowMs : Nat)
    (tsNow : String) (nodes : List RawFields) (maxProps : Nat) :
    List (Option RecordMCP) :=
  mapIdxFrom (fun i rf => extractMCP city state (sfx i) nowMs tsNow rf) 0
    (nodes.take maxProps)

/-- The collection result of the MCP pipeline:
`.map(...).filter(property => property !== null)`. -/
def collectMCP (city state : String) (sfx : Nat → String) (nowMs : Nat)
    (tsNow : String) (nodes : List RawFields) (maxProps : Nat) :
    List (Option RecordMCP) :=
  (collectMCPRaw city state sfx nowMs tsNow nodes maxProps).filter
    (fun p => p.isSome)

/-! ## The Lambda pipeline (`RealtyDataService`) -/

/-- The per-node extraction of the Lambda pipeline.  It never rejects a
node: a missing price becomes the placeholder string and a bad address
is synthesized. -/
def extract003 (city state : String) (index : Nat) (d : Draws) (nowMs : Nat)
    (tsNow : String) (rf : RawFields) : Record003 :=
  let imageUrl := normalizeImageUrl rf.imageUrl
  let propertyUrl := normalizeUrl000 rf.href
  let beds := parseBeds rf.fullText rf.fullText
  let baths := parseBaths rf.fullText rf.fullText
  let sqft := parseSqft rf.fullText rf.fullText
  let price := parsePrice003 rf.priceText rf.fullText
  let extractedAddress := parseAddress003 rf.fullText city state
  let fa0 := if extractedAddress = "" then rf.addressText else extractedAddress
  let finalAddress :=
    if fa0 = "" ∨ jsHasSub fa0 "Eddie" ∨ jsHasSub fa0 "Agent" ∨ fa0.length < 10
    then synthAddress d city state else fa0
  let priceNum := jsOrNat (jsParseIntL (stripCurrencyL price.data)) 250000
  let priceRange := if 0 < priceNum then priceRangeChain priceNum else "Unknown"
  let propertyType := propertyTypeOf beds
  { id := "property_" ++ natRepr nowMs ++ "_" ++ natRepr index
    address := finalAddress
    price := price
    beds := beds
    baths := baths
    sqft := sqft
    description :=
      mkDescription003 (natRepr beds) (decRepr baths) propertyType city state
    imageUrl := imageUrl
    propertyUrl := propertyUrl
    city := city
    state := state
    priceRange := priceRange
    propertyType := propertyType
    collectedAt := tsNow }

/-- The collection step of the Lambda pipeline.  The page-side code
slices the located nodes to the hard-coded constant 20 — the
`maxProperties` parameter of `collectProperties` is not passed into the
extraction at all, which is why it is unused here. -/
def collect003 (city state : String) (env : Nat → Draws) (nowMs : Nat)
    (tsNow : String) (nodes : List RawFields) (_maxProperties : Nat) :
    List Record003 :=
  mapIdxFrom (fun i rf => extract003 city state i (env i) nowMs tsNow rf) 0
    (nodes.take 20)

/-- Pointwise equality of two script-pipeline records on every field
except `objectID` and `collectedAt`. -/
def eqExceptIds (r₁ r₂ : Record000) : Prop :=
  r₁.address = r₂.address ∧ r₁.price = r₂.price ∧ r₁.beds = r₂.beds ∧
  r₁.baths = r₂.baths ∧ r₁.sqft = r₂.sqft ∧ r₁.description = r₂.description ∧
  r₁.imageUrl = r₂.imageUrl ∧ r₁.propertyUrl = r₂.propertyUrl ∧
  r₁.city = r₂.city ∧ r₁.state = r₂.state ∧ r₁.priceRange = r₂.priceRange ∧
  r₁.propertyType = r₂.propertyType

/-- `parseInt` of the stripped price string — the numeric value the
pipeline associates to a price. -/
def numericOfPrice (s : String) : Option Nat := jsParseIntL (stripCurrencyL s.data)

/-! ## Helper lemmas -/

/-- Whatever the price cascade returns passed its range guard. -/
theorem tryPricePatterns_range (pats : List (List RItem)) (corpus s : List Char)
    (h : tryPricePatterns pats corpus = some s) :
    ∃ n, jsParseIntL (stripCurrencyL s) = some n ∧ 10000 < n ∧ n < 10000000 := by
  induction pats with
  | nil => simp [tryPricePatterns] at h
  | cons p rest ih =>
    rw [tryPricePatterns] at h
    cases hm : scanMatch p corpus with
    | none => rw [hm] at h; exact ih h
    | some m =>
      rw [hm] at h
      cases hn : jsParseIntL (stripCurrencyL (stripWsL m)) with
      | none => simp only [hn] at h; exact ih h
      | some n =>
        simp only [hn] at h
        by_cases hr : 10000 < n ∧ n < 10000000
        · rw [if_pos hr] at h
          cases h
          exact ⟨n, hn, hr.1, hr.2⟩
        · rw [if_neg hr] at h; exact ih h

/-- Whatever `parsePrice` returns has an in-range numeric value. -/
theorem parsePrice_range (t f str : String) (h : parsePrice t f = some str) :
    ∃ n, numericOfPrice str = some n ∧ 10000 < n ∧ n < 10000000 := by
  rw [parsePrice] at h
  by_cases hi : invalidPriceIndicators.any (fun ind => jsHasSub (lowerStr t) ind)
  · rw [if_pos hi] at h; cases h
  · rw [if_neg hi] at h
    cases htp : tryPricePatterns [pricePat1, pricePat2, pricePat3] (t ++ " " ++ f).data with
    | none => rw [htp] at h; cases h
    | some cs =>
      rw [htp] at h
      cases h
      exact tryPricePatterns_range _ _ _ htp

/-- A price with an in-range numeric value is not the empty string. -/
theorem price_ne_empty (p : String) (n : Nat) (hn : numericOfPrice p = some n) :
    p ≠ "" := by
  intro he
  subst he
  simp [numericOfPrice, stripCurrencyL, jsParseIntL] at hn

/-- Length of `mapIdxFrom`. -/
theorem length_mapIdxFrom (f : Nat → α → β) :
    ∀ (i : Nat) (l : List α), (mapIdxFrom f i l).length = l.length := by
  intro i l
  induction l generalizing i with
  | nil => rfl
  | cons a t ih => simp [mapIdxFrom, ih]

/-! ## C1 — price gate of the script pipeline -/

/-- C1: for every listing node, if price parsing yields absent, the
script pipeline's extraction callback returns null and no record is
emitted, regardless of the other fields.  (In the Lambda copy the price
parser cannot yield absent — it returns a placeholder string — so the
gate claim is settled on the copy that has the gate.) -/
theorem c1_price_gate (city state : String) (index : Nat) (d : Draws)
    (nowMs : Nat) (tsNow : String) (rf : RawFields)
    (h : parsePrice rf.priceText rf.fullText = none) :
    extract000 city state index d nowMs tsNow rf = none := by
  rw [extract000, h]
  rfl

/-- C1 witness: the spec's example listing — full text
`"2 bed, 1 bath, 1000 sqft"` and no price anywhere — is rejected. -/
theorem c1_price_gate_witness :
    extract000 "Columbus" "OH" 0 { streetNumber := 1, nameIdx := 0, typeIdx := 0 }
      0 "t" { priceText := "", addressText := "", imageUrl := "", href := "",
              fullText := "2 bed, 1 bath, 1000 sqft" } = none :=
  c1_price_gate "Columbus" "OH" 0 _ 0 "t" _ (by decide)

/-! ## C2 — "no real price" phrases -/

/-- C2 counterexample: the claim says a phrase anywhere in the combined
candidate-plus-fullText corpus forces absent.  But the source only
lower-cases and checks the candidate `text` argument; with candidate
`""` and full text `"sold $325,000"` the combined corpus contains
`"sold"`, yet the parser returns the numeric match. -/
theorem c2_phrase_counterexample :
    parsePrice "" "sold $325,000" = some "$325,000" ∧
    (invalidPriceIndicators.any
      (fun ind => jsHasSub (lowerStr ("" ++ " " ++ "sold $325,000")) ind)) = true := by
  constructor
  · decide
  · decide

/-- C2 amended: the indicator check applies to the candidate `text`
argument only — whenever the lower-cased candidate text contains one of
the fixed phrases, the parser returns absent and never a numeric match.
(The MCP copy passes `priceText + ' ' + fullText` as the candidate, so
the original claim does hold for the corpus that copy hands over; the
Lambda copy has no phrase check at all.) -/
theorem c2_phrase_rejection (text fullText : String)
    (h : (invalidPriceIndicators.any (fun ind => jsHasSub (lowerStr text) ind)) = true) :
    parsePrice text fullText = none := by
  rw [parsePrice]
  rw [if_pos h]

/-- C2 witness: a candidate text containing `"Call For Price"` (any
case) is rejected. -/
theorem c2_phrase_rejection_witness :
    parsePrice "Call For Price" "some $325,000 text" = none :=
  c2_phrase_rejection "Call For Price" "some $325,000 text" (by decide)

/-! ## C3 — price range guard -/

/-- C3: the price parser never returns a price whose numeric value
(currency symbols and commas stripped) lies outside `(10000, 10000000)`;
a pattern whose first match is out of range (or unparsable) falls
through to the next pattern of the cascade, and to absent when none
remains. -/
theorem c3_price_range :
    (∀ t f str, parsePrice t f = some str →
      ∃ n, numericOfPrice str = some n ∧ 10000 < n ∧ n < 10000000) ∧
    (∀ (p : List RItem) (rest : List (List RItem)) (corpus : List Char),
      (∀ m, scanMatch p corpus = some m →
        ¬ ∃ n, jsParseIntL (stripCurrencyL (stripWsL m)) = some n ∧
          10000 < n ∧ n < 10000000) →
      tryPricePatterns (p :: rest) corpus = tryPricePatterns rest corpus) := by
  constructor
  · exact parsePrice_range
  · intro p rest corpus hbad
    rw [tryPricePatterns]
    cases hm : scanMatch p corpus with
    | none => rfl
    | some m =>
      cases hn : jsParseIntL (stripCurrencyL (stripWsL m)) with
      | none => simp only [hn]
      | some n =>
        simp only [hn]
        rw [if_neg]
        intro hr
        exact hbad m hm ⟨n, hn, hr⟩

/-- C3 witness: the parser accepts `$325,000` from a bare corpus and its
numeric value is in range. -/
theorem c3_price_range_witness :
    ∃ n, numericOfPrice "$325,000" = some n ∧ 10000 < n ∧ n < 10000000 :=
  c3_price_range.1 "" "$325,000" "$325,000" (by decide)

/-! ## C4 — priceRange buckets -/

/-- C4: every record the script pipeline emits has `priceRange` derived
from the numeric price by the fixed thresholds (below 200000 →
"Under $200K", below 400000 → "$200K - $400K", below 600000 →
"$400K - $600K", otherwise "Over $600K"); and the spec's example — empty
structured price selectors, full text containing `$325,000` — yields
price `"$325,000"` and priceRange `"$200K - $400K"`. -/
theorem c4_price_range_bucket :
    (∀ (city state : String) (index : Nat) (d : Draws) (nowMs : Nat)
        (tsNow : String) (rf : RawFields) (r : Record000),
      extract000 city state index d nowMs tsNow rf = some r →
      ∃ n, numericOfPrice r.price = some n ∧
        r.priceRange =
          (if n < 200000 then "Under $200K"
           else if n < 400000 then "$200K - $400K"
           else if n < 600000 then "$400K - $600K"
           else "Over $600K")) ∧
    (∃ r, extract000 "Columbus" "OH" 0 { streetNumber := 1, nameIdx := 0, typeIdx := 0 }
        0 "t" { priceText := "", addressText := "", imageUrl := "", href := "",
                fullText := "Listed at $325,000" } = some r ∧
      r.price = "$325,000" ∧ r.priceRange = "$200K - $400K") := by
  constructor
  · intro city state index d nowMs tsNow rf r h
    rw [extract000] at h
    cases hp : parsePrice rf.priceText rf.fullText with
    | none => rw [hp] at h; simp [finalize000] at h
    | some p =>
      rw [hp] at h
      obtain ⟨n, hn, h1, h2⟩ := parsePrice_range _ _ _ hp
      have hpne := price_ne_empty p n hn
      simp only [finalize000, if_neg hpne] at h
      injection h with h
      subst h
      refine ⟨n, hn, ?_⟩
      simp only [numericOfPrice] at hn
      simp only [jsOrNat, hn]
      rw [if_neg (by omega : ¬ n = 0), if_pos (by omega : 0 < n)]
      simp [priceRangeChain]
  · have h : (extract000 "Columbus" "OH" 0
        { streetNumber := 1, nameIdx := 0, typeIdx := 0 } 0 "t"
        { priceText := "", addressText := "", imageUrl := "", href := "",
          fullText := "Listed at $325,000" }).map
        (fun r => (r.price, r.priceRange)) = some ("$325,000", "$200K - $400K") := by
      decide
    cases he : extract000 "Columbus" "OH" 0
        { streetNumber := 1, nameIdx := 0, typeIdx := 0 } 0 "t"
        { priceText := "", addressText := "", imageUrl := "", href := "",
          fullText := "Listed at $325,000" } with
    | none => rw [he] at h; simp at h
    | some r =>
      rw [he] at h
      simp only [Option.map_some', Option.some.injEq, Prod.mk.injEq] at h
      exact ⟨r, rfl, h.1, h.2⟩

/-- C4 witness: the example record exists and its bucket follows the
thresholds from its numeric price. -/
theorem c4_price_range_bucket_witness :
    ∃ r, extract000 "Columbus" "OH" 0 { streetNumber := 1, nameIdx := 0, typeIdx := 0 }
        0 "t" { priceText := "", addressText := "", imageUrl := "", href := "",
                fullText := "Listed at $325,000" } = some r ∧
      ∃ n, numericOfPrice r.price = some n ∧
        r.priceRange =
          (if n < 200000 then "Under $200K"
           else if n < 400000 then "$200K - $400K"
           else if n < 600000 then "$400K - $600K"
           else "Over $600K") := by
  obtain ⟨r, hr, hprice, hrange⟩ := c4_price_range_bucket.2
  exact ⟨r, hr, c4_price_range_bucket.1 _ _ _ _ _ _ _ r hr⟩

/-! ## C5 — nulls in the collection result -/

/-- C5 counterexample: the claim says `collect` never returns null
entries.  In the script pipeline the mapped array is returned without
filtering, so a single unpriced listing makes `collect` return a list
whose (only) entry is null — the nulls are removed only later, in
`indexProperties`. -/
theorem c5_nulls_counterexample :
    collect000 "Columbus" "OH"
      (fun _ => { streetNumber := 1, nameIdx := 0, typeIdx := 0 }) 0 "t"
      [{ priceText := "", addressText := "", imageUrl := "", href := "",
         fullText := "no valid price text" }] 20 = [none] := by
  decide

/-- C5 amended: the MCP pipeline's collect (`map` + `filter(p => p !==
null)`) is what satisfies the claim — its result contains no null, is a
subsequence of the mapped extraction results (original DOM order), and
keeps every non-null result; the script pipeline returns the unfiltered
map, whose null entries are removed downstream before indexing. -/
theorem c5_collect_filtered (city state : String) (sfx : Nat → String)
    (nowMs : Nat) (tsNow : String) (nodes : List RawFields) (maxProps : Nat) :
    ¬ (none ∈ collectMCP city state sfx nowMs tsNow nodes maxProps) ∧
    List.Sublist (collectMCP city state sfx nowMs tsNow nodes maxProps)
      (collectMCPRaw city state sfx nowMs tsNow nodes maxProps) ∧
    (∀ o ∈ collectMCPRaw city state sfx nowMs tsNow nodes maxProps,
      o ≠ none → o ∈ collectMCP city state sfx nowMs tsNow nodes maxProps) := by
  refine ⟨?_, ?_, ?_⟩
  · intro h
    have := (List.mem_filter.mp h).2
    simp [Option.isSome] at this
  · exact List.filter_sublist _
  · intro o ho hne
    refine List.mem_filter.mpr ⟨ho, ?_⟩
    cases o with
    | none => exact absurd rfl hne
    | some r => rfl

/-- C5 witness: on a concrete one-listing page whose extraction
succeeds, the MCP collect contains that record and no null. -/
theorem c5_collect_filtered_witness :
    ¬ (none ∈ collectMCP "Parma" "OH" (fun _ => "abcdefghi") 0 "t"
        [{ priceText := "", addressText := "123 Main Street",
           imageUrl := "https://img.example.com/a.jpg", href := "/listing/1",
           fullText := "$325,000 3 bd 2 ba 1,400 sqft" }] 5) ∧
    extractMCP "Parma" "OH" "abcdefghi" 0 "t"
      { priceText := "", addressText := "123 Main Street",
        imageUrl := "https://img.example.com/a.jpg", href := "/listing/1",
        fullText := "$325,000 3 bd 2 ba 1,400 sqft" } ∈
      collectMCP "Parma" "OH" (fun _ => "abcdefghi") 0 "t"
        [{ priceText := "", addressText := "123 Main Street",
           imageUrl := "https://img.example.com/a.jpg", href := "/listing/1",
           fullText := "$325,000 3 bd 2 ba 1,400 sqft" }] 5 := by
  have h := c5_collect_filtered "Parma" "OH" (fun _ => "abcdefghi") 0 "t"
    [{ priceText := "", addressText := "123 Main Street",
       imageUrl := "https://img.example.com/a.jpg", href := "/listing/1",
       fullText := "$325,000 3 bd 2 ba 1,400 sqft" }] 5
  refine ⟨h.1, h.2.2 _ ?_ ?_⟩
  · simp [collectMCPRaw, mapIdxFrom, List.take]
  · decide

/-! ## C6 — truncation to maxCount -/

/-- C6 (code bug): the claim — extraction runs on at most the first
`maxCount` located nodes — holds for the script and MCP copies
(`slice(0, maxProps)`), but the Lambda `RealtyDataService` slices to the
hard-coded constant 20 and never passes its `maxProperties` parameter
into the page evaluation: with `maxCount = 5` and 20 located nodes it
extracts from all 20. -/
theorem c6_fixed_slice_bug :
    (collect003 "Parma" "OH" (fun _ => { streetNumber := 1, nameIdx := 0, typeIdx := 0 })
      0 "t" (List.replicate 20
        { priceText := "", addressText := "", imageUrl := "", href := "",
          fullText := "" }) 5).length = 20 := by
  rw [collect003, length_mapIdxFrom]
  decide

/-! ## C7 — validator idempotence -/

/-- C7 counterexample: the claim says two runs of the validator on
identical inputs agree on every field except `objectId` and
`collectedAt`.  When the address fallback fires, the synthesized address
depends on `Math.random()`: two runs on the very same raw and parsed
inputs (same city, state, index) can produce different `address`
fields. -/
theorem c7_idempotence_counterexample :
    (finalize000 "Columbus" "OH" 0 { streetNumber := 1, nameIdx := 0, typeIdx := 0 }
        0 "t" (some "$325,000") "" "" 3 { units := 2, frac := [] } 1500 "" "").map
      Record000.address = some "1 Main St, Columbus, OH" ∧
    (finalize000 "Columbus" "OH" 0 { streetNumber := 2, nameIdx := 1, typeIdx := 1 }
        1 "u" (some "$325,000") "" "" 3 { units := 2, frac := [] } 1500 "" "").map
      Record000.address = some "2 Oak Ave, Columbus, OH" ∧
    ("1 Main St, Columbus, OH" : String) ≠ "2 Oak Ave, Columbus, OH" := by
  refine ⟨by decide, by decide, by decide⟩

/-- C7 amended: on identical raw and parsed inputs (same city, state,
index), two validator runs yield records identical in every field except
`objectID` and `collectedAt` — provided the extracted-or-structural
address meets the length-10 bar, so the random address synthesis does
not fire.  When it does fire, `address` may differ as well, while all
other fields still agree. -/
theorem c7_idempotence (city state : String) (index : Nat) (d₁ d₂ : Draws)
    (ms₁ ms₂ : Nat) (ts₁ ts₂ : String) (p eAddr aText : String) (beds : Nat)
    (baths : JsDec) (sqft : Nat) (img url : String)
    (hp : p ≠ "")
    (hlen : 10 ≤ (if eAddr = "" then aText else eAddr).length) :
    ∃ r₁ r₂,
      finalize000 city state index d₁ ms₁ ts₁ (some p) eAddr aText beds baths
        sqft img url = some r₁ ∧
      finalize000 city state index d₂ ms₂ ts₂ (some p) eAddr aText beds baths
        sqft img url = some r₂ ∧
      eqExceptIds r₁ r₂ := by
  have hne : ¬ ((if eAddr = "" then aText else eAddr) = "" ∨
      (if eAddr = "" then aText else eAddr).length < 10) := by
    push_neg
    refine ⟨?_, by omega⟩
    intro h
    rw [h] at hlen
    simp [String.length] at hlen
  simp only [finalize000, if_neg hp, if_neg hne]
  exact ⟨_, _, rfl, rfl, rfl, rfl, rfl, rfl, rfl, rfl, rfl, rfl, rfl, rfl, rfl, rfl⟩

/-- C7 witness: two runs with different draws and timestamps on an input
whose address passes the bar agree except on the id fields. -/
theorem c7_idempotence_witness :
    ∃ r₁ r₂,
      finalize000 "Columbus" "OH" 0 { streetNumber := 1, nameIdx := 0, typeIdx := 0 }
        0 "a" (some "$325,000") "12 Hill Street" "" 3 { units := 2, frac := [] }
        1500 "" "" = some r₁ ∧
      finalize000 "Columbus" "OH" 0 { streetNumber := 2, nameIdx := 1, typeIdx := 1 }
        1 "b" (some "$325,000") "12 Hill Street" "" 3 { units := 2, frac := [] }
        1500 "" "" = some r₂ ∧
      eqExceptIds r₁ r₂ :=
  c7_idempotence "Columbus" "OH" 0 _ _ 0 1 "a" "b" "$325,000" "12 Hill Street" ""
    3 _ 1500 "" "" (by decide) (by decide)

/-! ## C8 — synthesized fallback addresses -/

/-- Digits produced by `digitsRevFuel` are below 10. -/
theorem mem_digitsRevFuel_lt (fuel : Nat) :
    ∀ n d, d ∈ digitsRevFuel fuel n → d < 10 := by
  induction fuel with
  | zero => intro n d h; simp [digitsRevFuel] at h
  | succ f ih =>
    intro n d h
    rw [digitsRevFuel] at h
    by_cases hz : n = 0
    · simp [hz] at h
    · rw [if_neg hz] at h
      rcases List.mem_cons.mp h with h | h
      · subst h; exact Nat.mod_lt _ (by norm_num)
      · exact ih _ _ h

/-- `digitsRevFuel` produces at most `k` digits below `10 ^ k`. -/
theorem digitsRevFuel_length_le :
    ∀ (fuel n k : Nat), n < 10 ^ k → (digitsRevFuel fuel n).length ≤ k := by
  intro fuel
  induction fuel with
  | zero => intro n k _; simp [digitsRevFuel]
  | succ f ih =>
    intro n k h
    rw [digitsRevFuel]
    by_cases hz : n = 0
    · simp [hz]
    · rw [if_neg hz]
      cases k with
      | zero => simp at h; omega
      | succ k' =>
        simp only [List.length_cons]
        have hd : n / 10 < 10 ^ k' := by
          have h10 : (10 : Nat) ^ (k' + 1) = 10 ^ k' * 10 := by ring
          rw [h10] at h
          omega
        have := ih (n / 10) k' hd
        omega

/-- `digitsRevFuel n n` is nonempty for positive `n`. -/
theorem digitsRevFuel_ne_nil (n : Nat) (h : n ≠ 0) : digitsRevFuel n n ≠ [] := by
  cases n with
  | zero => exact absurd rfl h
  | succ m => rw [digitsRevFuel]; rw [if_neg h]; simp

/-- The character of a digit is a digit character. -/
theorem jsDigit_digitChar (d : Nat) (h : d < 10) : jsDigit (digitChar d) = true := by
  interval_cases d <;> decide

/-- `natRepr` is nonempty. -/
theorem natRepr_length_pos (n : Nat) : 1 ≤ (natRepr n).length := by
  rw [natRepr]
  by_cases hz : n = 0
  · rw [if_pos hz]; decide
  · rw [if_neg hz]
    have hne := digitsRevFuel_ne_nil n hz
    change 1 ≤ ((digitsRevFuel n n).reverse.map digitChar).length
    rw [List.length_map, List.length_reverse]
    cases hl : digitsRevFuel n n with
    | nil => exact absurd hl hne
    | cons a l => simp

/-- `natRepr` of a number up to 9999 has at most four characters. -/
theorem natRepr_length_le (n : Nat) (h : n ≤ 9999) : (natRepr n).length ≤ 4 := by
  rw [natRepr]
  by_cases hz : n = 0
  · rw [if_pos hz]; decide
  · rw [if_neg hz]
    change ((digitsRevFuel n n).reverse.map digitChar).length ≤ 4
    rw [List.length_map, List.length_reverse]
    exact digitsRevFuel_length_le n n 4 (by omega)

/-- `natRepr` contains a digit character. -/
theorem natRepr_has_digit (n : Nat) : ∃ c ∈ (natRepr n).data, jsDigit c = true := by
  rw [natRepr]
  by_cases hz : n = 0
  · rw [if_pos hz]; exact ⟨'0', by decide, by decide⟩
  · rw [if_neg hz]
    have hne := digitsRevFuel_ne_nil n hz
    cases hl : digitsRevFuel n n with
    | nil => exact absurd hl hne
    | cons a l =>
      have hmem : a ∈ digitsRevFuel n n := by rw [hl]; exact List.mem_cons_self a l
      refine ⟨digitChar a, ?_, jsDigit_digitChar a (mem_digitsRevFuel_lt n n a hmem)⟩
      show digitChar a ∈ (a :: l).reverse.map digitChar
      exact List.mem_map_of_mem _ (List.mem_reverse.mpr (List.mem_cons_self a l))

/-- Concatenation at the character-list level. -/
theorem data_append (a b : String) : (a ++ b).data = a.data ++ b.data := by
  cases a; cases b; rfl

/-- Street-name pool lengths. -/
theorem streetNames_len (i : Nat) (h : i < 11) :
    3 ≤ (streetNames.getD i "").length ∧ (streetNames.getD i "").length ≤ 5 := by
  interval_cases i <;> exact ⟨by decide, by decide⟩

/-- Street-type pool lengths. -/
theorem streetTypes_len (j : Nat) (h : j < 8) :
    2 ≤ (streetTypes.getD j "").length ∧ (streetTypes.getD j "").length ≤ 4 := by
  interval_cases j <;> exact ⟨by decide, by decide⟩

/-- C8 counterexample: the claim bounds every synthesized address by 60
characters for every city and state, but the synthesized string embeds
the city and state verbatim — a 50-character city already produces 65
characters with the shortest possible street part. -/
theorem c8_length_counterexample :
    (synthAddress { streetNumber := 1, nameIdx := 0, typeIdx := 0 }
      "Llanfairpwllgwyngyllgogerychwyrndrobwllllantysilio" "OH").length = 65 ∧
    ¬ ((synthAddress { streetNumber := 1, nameIdx := 0, typeIdx := 0 }
      "Llanfairpwllgwyngyllgogerychwyrndrobwllllantysilio" "OH").length ≤ 60) := by
  refine ⟨by decide, by decide⟩

/-- C8 amended: every synthesized fallback address ends with
`, city, state`, contains a digit, and has length at least 10; the
60-character upper bound holds whenever the city and state together are
at most 41 characters (the street part contributes between 12 and 19
characters including the separators). -/
theorem c8_synth_address (city state : String) (n i j : Nat)
    (_hn1 : 1 ≤ n) (hn2 : n ≤ 9999) (hi : i < 11) (hj : j < 8) :
    (∃ preChars, (synthAddress { streetNumber := n, nameIdx := i, typeIdx := j }
        city state).data = preChars ++ (", " ++ city ++ ", " ++ state).data) ∧
    (∃ c ∈ (synthAddress { streetNumber := n, nameIdx := i, typeIdx := j }
        city state).data, jsDigit c = true) ∧
    10 ≤ (synthAddress { streetNumber := n, nameIdx := i, typeIdx := j }
        city state).length ∧
    (city.length + state.length ≤ 41 →
      (synthAddress { streetNumber := n, nameIdx := i, typeIdx := j }
        city state).length ≤ 60) := by
  have h1 : (" " : String).length = 1 := rfl
  have h2 : (", " : String).length = 2 := rfl
  have hlen : (synthAddress { streetNumber := n, nameIdx := i, typeIdx := j }
      city state).length =
      (natRepr n).length + 1 + (streetNames.getD i "").length + 1 +
        (streetTypes.getD j "").length + 2 + city.length + 2 + state.length := by
    simp only [synthAddress, String.length_append, h1, h2]
    try omega
  have hR1 := natRepr_length_pos n
  have hR4 := natRepr_length_le n hn2
  have hN := streetNames_len i hi
  have hT := streetTypes_len j hj
  refine ⟨?_, ?_, ?_, ?_⟩
  · refine ⟨(natRepr n ++ " " ++ streetNames.getD i "" ++ " " ++
      streetTypes.getD j "").data, ?_⟩
    simp only [synthAddress, data_append, List.append_assoc]
  · obtain ⟨c, hc, hd⟩ := natRepr_has_digit n
    refine ⟨c, ?_, hd⟩
    simp only [synthAddress, data_append, List.append_assoc]
    exact List.mem_append_left _ hc
  · omega
  · intro hcs; omega

/-- C8 witness: a synthesized address for a realistic city/state is
well-formed and within the bounds. -/
theorem c8_synth_address_witness :
    (∃ preChars, (synthAddress { streetNumber := 123, nameIdx := 0, typeIdx := 0 }
        "Columbus" "OH").data = preChars ++ (", " ++ "Columbus" ++ ", " ++ "OH").data) ∧
    (∃ c ∈ (synthAddress { streetNumber := 123, nameIdx := 0, typeIdx := 0 }
        "Columbus" "OH").data, jsDigit c = true) ∧
    10 ≤ (synthAddress { streetNumber := 123, nameIdx := 0, typeIdx := 0 }
        "Columbus" "OH").length ∧
    (synthAddress { streetNumber := 123, nameIdx := 0, typeIdx := 0 }
        "Columbus" "OH").length ≤ 60 := by
  have h := c8_synth_address "Columbus" "OH" 123 0 0 (by decide) (by decide)
    (by decide) (by decide)
  exact ⟨h.1, h.2.1, h.2.2.1, h.2.2.2 (by decide)⟩

/-! ## C9 — property-URL deny list -/

/-- C9 counterexample: the claim covers the MCP copy too (its cited
normalization), but that copy only absolutizes and has no deny-list — a
`mailto:` href survives as a non-empty URL there. -/
theorem c9_denylist_counterexample :
    normalizeUrlMCP "mailto:agent@example.com" =
      "https://www.realty.com/mailto:agent@example.com" ∧
    normalizeUrlMCP "mailto:agent@example.com" ≠ "" := by
  refine ⟨by decide, by decide⟩

/-- C9 amended: in the script and Lambda copies, any property URL whose
absolutized form contains `mailto:`, `tel:`, the script pseudo-protocol,
an in-page anchor marker, or an agent/contact segment is discarded to
the empty string; in particular `"mailto:agent@example.com"` normalizes
to `""` there.  The MCP copy performs no deny-list filtering. -/
theorem c9_denylist (href : String) (h : denyHit (absolutizeUrl href) = true) :
    normalizeUrl000 href = "" ∧
    normalizeUrl000 "mailto:agent@example.com" = "" := by
  constructor
  · rw [normalizeUrl000]
    by_cases he : href = ""
    · rw [if_pos he]
    · rw [if_neg he]
      show (if denyHit (absolutizeUrl href) = true then "" else absolutizeUrl href) = ""
      rw [if_pos h]
  · decide

/-- C9 witness: a `tel:` href is discarded. -/
theorem c9_denylist_witness :
    normalizeUrl000 "tel:5551234" = "" ∧
    normalizeUrl000 "mailto:agent@example.com" = "" :=
  c9_denylist "tel:5551234" (by decide)

/-! ## C10 — the MCP all-fields acceptance gate -/

/-- C10: the MCP extraction emits a record only when price, address,
image URL and property URL are all non-empty: every emitted record has
all four non-empty, and whenever one of the four computed values is
empty or absent the extraction returns null. -/
theorem c10_all_fields_gate (city state sfx : String) (nowMs : Nat)
    (tsNow : String) (rf : RawFields) :
    (∀ r, extractMCP city state sfx nowMs tsNow rf = some r →
      r.price ≠ "" ∧ r.address ≠ "" ∧ r.imageUrl ≠ "" ∧ r.propertyUrl ≠ "") ∧
    ((mcpPrice rf = none ∨ mcpPrice rf = some "" ∨
      mcpAddress city state rf = "" ∨ mcpImage rf = "" ∨ mcpUrl rf = "") →
      extractMCP city state sfx nowMs tsNow rf = none) := by
  constructor
  · intro r h
    cases hp : mcpPrice rf with
    | none => simp only [extractMCP, hp] at h; cases h
    | some p =>
      simp only [extractMCP, hp] at h
      by_cases hc : p = "" ∨ mcpAddress city state rf = "" ∨ mcpImage rf = "" ∨
          mcpUrl rf = ""
      · rw [if_pos hc] at h; cases h
      · rw [if_neg hc] at h
        push_neg at hc
        obtain ⟨h1, h2, h3, h4⟩ := hc
        injection h with h
        subst h
        exact ⟨h1, h2, h3, h4⟩
  · intro hd
    cases hp : mcpPrice rf with
    | none => simp only [extractMCP, hp]
    | some p =>
      simp only [extractMCP, hp]
      rcases hd with h | h | h | h | h
      · rw [hp] at h; cases h
      · rw [hp] at h
        injection h with h
        rw [if_pos (Or.inl h)]
      · rw [if_pos (Or.inr (Or.inl h))]
      · rw [if_pos (Or.inr (Or.inr (Or.inl h)))]
      · rw [if_pos (Or.inr (Or.inr (Or.inr h)))]

/-- C10 witness: a node with no price text at all is rejected by the
gate. -/
theorem c10_all_fields_gate_witness :
    extractMCP "Parma" "OH" "x" 0 "t"
      { priceText := "", addressText := "", imageUrl := "", href := "",
        fullText := "" } = none :=
  (c10_all_fields_gate "Parma" "OH" "x" 0 "t"
    { priceText := "", addressText := "", imageUrl := "", href := "",
      fullText := "" }).2 (Or.inl (by decide))

end PropTech
